import Mathlib

/-!
Verification of the Auto-ml-train job-tracking relay.

The server keeps an in-memory map `jobs` from job identifier to job record.
Three HTTP handlers mutate or read it:
  * `POST /api/upload`  : creates the record (`uploading`/10), uploads the CSV
    to storage, sets (`training`/40), triggers the external trainer, and on any
    failure after creation marks (`error`, message) and answers HTTP 500;
  * `POST /api/callback`: on a matching job id sets status (payload or
    `completed`), progress 100 and the result object, and always acknowledges;
  * `GET /api/status/:jobId`: returns the record or 404, without side effects.
The React client polls the status endpoint every 3 seconds while in the
`training` state, advancing a displayed progress bar by 2 up to a cap of 95
until a terminal status is observed.

Each definition below is a shallow embedding of the corresponding JavaScript
code; external effects (file read, storage upload, trainer webhook) are
abstracted by their outcomes, and JavaScript string falsiness (`undefined` or
`""`) is modelled by `Option String` together with an emptiness test.
-/

namespace AutoML

/-- The `result` object stored by the callback handler:
`{ display_metric, message }`, either field possibly `undefined`. -/
structure JobResult where
  display_metric : Option String
  message : Option String
deriving Repr, DecidableEq

/-- A job record of the in-memory Job Store. The upload handler creates it
with fields `id`, `status`, `progress`, `email`; the error path adds
`message`, the callback handler adds `result`. Absent fields are `none`. -/
structure Job where
  id : String
  status : String
  progress : Nat
  email : String
  message : Option String
  result : Option JobResult
deriving Repr, DecidableEq

/-- The Job Store `jobs`: a JavaScript object modelled as an association list
from job identifier to record (lookup finds the first, and keys inserted by
`setJob` stay unique). -/
abbrev Store := List (String × Job)

/-- Lookup `jobs[id]`. -/
def findJob : Store → String → Option Job
  | [], _ => none
  | (k, v) :: rest, id => if k = id then some v else findJob rest id

/-- Assignment `jobs[id] = j` (replaces an existing binding or appends). -/
def setJob : Store → String → Job → Store
  | [], id, j => [(id, j)]
  | (k, v) :: rest, id, j =>
      if k = id then (k, j) :: rest else (k, v) :: setJob rest id j

/-- In-place field mutation `jobs[id].field = ...`, as a record update
applied at key `id` (identity when the key is absent). -/
def modifyJob : Store → String → (Job → Job) → Store
  | [], _, _ => []
  | (k, v) :: rest, id, f =>
      if k = id then (k, f v) :: rest else (k, v) :: modifyJob rest id f

/-- The body of a callback request from the trainer:
`{ jobId, status, display_metric, message }`, each possibly absent. -/
structure CallbackPayload where
  jobId : Option String
  status : Option String
  display_metric : Option String
  message : Option String
deriving Repr, DecidableEq

/-- JavaScript `status || "completed"`: an absent or empty status string is
falsy and defaults to `"completed"`. -/
def statusOrCompleted : Option String → String
  | none => "completed"
  | some st => if st = "" then "completed" else st

/-- Effect of one matching callback on a record: `jobs[jobId].status = status
|| "completed"; jobs[jobId].progress = 100; jobs[jobId].result =
{ display_metric, message }`. -/
def applyCallback (p : CallbackPayload) (j : Job) : Job :=
  { j with
      status := statusOrCompleted p.status
      progress := 100
      result := some ⟨p.display_metric, p.message⟩ }

/-- Store effect of `POST /api/callback`: `if (jobId && jobs[jobId])` — the
identifier must be truthy (present and non-empty) and bound — then mutate
that record; otherwise the store is untouched. -/
def callbackStore (s : Store) (p : CallbackPayload) : Store :=
  match p.jobId with
  | none => s
  | some id =>
      if id = "" then s
      else
        match findJob s id with
        | none => s
        | some _ => modifyJob s id (applyCallback p)

/-- The record created by the upload handler:
`{ id: jobId, status: "uploading", progress: 10, email }`. -/
def initialJob (id email : String) : Job :=
  ⟨id, "uploading", 10, email, none, none⟩

/-- The four store mutations performed by the server, in the order they occur
in the upload and callback handlers. -/
inductive StoreOp where
  | create (id email : String)
  | setTraining (id : String)
  | markError (id msg : String)
  | callback (p : CallbackPayload)
deriving Repr, DecidableEq

/-- Apply one store mutation: `jobs[jobId] = {...}` for `create`;
`jobs[jobId].status = "training"; jobs[jobId].progress = 40` for
`setTraining`; the guarded `if (jobs[jobId]) { .status = "error"; .message =
...}` of the catch block for `markError`; and the callback effect. -/
def applyOp (s : Store) : StoreOp → Store
  | .create id email => setJob s id (initialJob id email)
  | .setTraining id =>
      modifyJob s id (fun j => { j with status := "training", progress := 40 })
  | .markError id m =>
      match findJob s id with
      | none => s
      | some _ =>
          modifyJob s id (fun j => { j with status := "error", message := some m })
  | .callback p => callbackStore s p

/-- Run a sequence of store mutations. -/
def runOps (s : Store) : List StoreOp → Store
  | [] => s
  | op :: rest => runOps (applyOp s op) rest

/-- A JSON body of the message shape used by the handlers:
`{ status?, message?, jobId?, detail? }`. -/
structure ApiMessage where
  status : Option String
  message : Option String
  jobId : Option String
  detail : Option String
deriving Repr, DecidableEq

/-- A response body: either a message object or a whole job record
(`res.json(job)` in the status handler). -/
inductive HttpBody where
  | msg (m : ApiMessage)
  | job (j : Job)
deriving Repr, DecidableEq

/-- An HTTP response: status code and JSON body. -/
structure HttpResponse where
  code : Nat
  body : HttpBody
deriving Repr, DecidableEq

/-- `GET /api/status/:jobId`: 404 `{status:"error", message:"Job not found"}`
when the identifier is unknown, otherwise the record itself; the store is
returned unchanged (the handler only reads it). -/
def statusHandler (s : Store) (id : String) : HttpResponse × Store :=
  match findJob s id with
  | none => (⟨404, .msg ⟨some "error", some "Job not found", none, none⟩⟩, s)
  | some j => (⟨200, .job j⟩, s)

/-- `POST /api/callback`: performs the store effect and always answers 200
`{status:"success", message:"Callback processed"}`. -/
def callbackHandler (s : Store) (p : CallbackPayload) : HttpResponse × Store :=
  (⟨200, .msg ⟨some "success", some "Callback processed", none, none⟩⟩,
   callbackStore s p)

/-- The parts of an upload request the handler inspects: whether the multipart
field `csv` is present, and the `email` form field (`""` models a falsy
missing value). -/
structure UploadReq where
  hasCsv : Bool
  email : String
deriving Repr, DecidableEq

/-- Outcomes of the three external steps of the upload path, abstracted:
`fs.readFileSync`, the storage upload (`ok` carries the stored path, `error`
the `csvError.message`), and the trainer webhook call (`ok` carries the HTTP
status of a 2xx reply; a timeout or non-2xx reply rejects with a message). -/
structure UploadEnv where
  readResult : Except String Unit
  storageResult : Except String String
  trainerResult : Except String Nat
deriving Repr

/-- The catch block of the upload handler: guardedly mark the job `error` with
the thrown message and answer 500
`{status:"error", message:"Upload process failed: ..."}`. -/
def uploadCatch (s : Store) (jobId m : String) : HttpResponse × Store :=
  (⟨500, .msg ⟨some "error", some ("Upload process failed: " ++ m), none, none⟩⟩,
   applyOp s (.markError jobId m))

/-- The message of the error thrown on a storage failure:
`Supabase upload failed: ${csvError.message || "Unknown error"}`. -/
def supabaseErrMsg (m : String) : String :=
  "Supabase upload failed: " ++ (if m = "" then "Unknown error" else m)

/-- `POST /api/upload`: validate (400 before any record exists), create the
record (`uploading`/10), read and store the file, set (`training`/40), call
the trainer, and answer `{status:"success", ..., jobId}`; any failure after
creation goes through the catch block. `jobId` is the freshly generated
UUID. -/
def uploadHandler (s : Store) (req : UploadReq) (env : UploadEnv)
    (jobId : String) : HttpResponse × Store :=
  if req.hasCsv = false then
    (⟨400, .msg ⟨none, some "CSV file is required", none, none⟩⟩, s)
  else if req.email = "" then
    (⟨400, .msg ⟨none, some "Email is required", none, none⟩⟩, s)
  else
    let s1 := applyOp s (.create jobId req.email)
    match env.readResult with
    | .error m => uploadCatch s1 jobId m
    | .ok _ =>
        match env.storageResult with
        | .error m => uploadCatch s1 jobId (supabaseErrMsg m)
        | .ok _ =>
            let s2 := applyOp s1 (.setTraining jobId)
            match env.trainerResult with
            | .error m => uploadCatch s2 jobId m
            | .ok _ =>
                (⟨200, .msg ⟨some "success",
                    some "CSV uploaded & ML training started",
                    some jobId, none⟩⟩, s2)

/-- The first failure message produced along the upload path for a given
environment, `none` when every step succeeds. -/
def envFailMsg (env : UploadEnv) : Option String :=
  match env.readResult with
  | .error m => some m
  | .ok _ =>
      match env.storageResult with
      | .error m => some (supabaseErrMsg m)
      | .ok _ =>
          match env.trainerResult with
          | .error m => some m
          | .ok _ => none

/-- The client state kept by the `UploadDataset` component: `status`
(`idle`, `uploading`, `training`, `completed`, `error`), the displayed
`progress`, the captured `result`, and the error message. -/
structure ClientState where
  status : String
  progress : Nat
  result : Option JobResult
  errorMsg : String
deriving Repr, DecidableEq

/-- One firing of the polling interval, abstracted by its outcome: a job
record fetched from the status endpoint, or a transport failure of the poll
itself. -/
inductive PollEvent where
  | ok (job : Job)
  | transportError
deriving Repr, DecidableEq

/-- Effect of one poll on the client state: on `completed` set progress 100
and capture the result; on `error` set the fixed error message; on any other
fetched status advance progress to `min (progress + 2) 95`; a transport
failure is caught and only logged, changing nothing. -/
def pollStep (c : ClientState) (e : PollEvent) : ClientState :=
  match e with
  | .transportError => c
  | .ok job =>
      if job.status = "completed" then
        { c with status := "completed", progress := 100, result := job.result }
      else if job.status = "error" then
        { c with
            status := "error"
            errorMsg := "Cloud training failed. Please check your data." }
      else
        { c with progress := min (c.progress + 2) 95 }

/-- Client state right after a successful upload submission: `handleSubmit`
clears `errorMsg` and `result`, then on success sets `status = "training"`
and `progress = 30`. -/
def submitSuccess (c : ClientState) : ClientState :=
  { c with status := "training", progress := 30, result := none, errorMsg := "" }

/-- The states traversed by the polling loop: the interval runs only while
`status === "training"` (reaching a terminal state clears it), so the trace
stops at the first non-`training` state. -/
def pollStates (c : ClientState) : List PollEvent → List ClientState
  | [] => [c]
  | e :: es =>
      if c.status = "training" then c :: pollStates (pollStep c e) es else [c]

/-- The displayed progress never decreases along a list of client states. -/
def progressMono : List ClientState → Bool
  | [] => true
  | [_] => true
  | a :: b :: rest => decide (a.progress ≤ b.progress) && progressMono (b :: rest)

/-- A client state is within bounds when its status is terminal or its
displayed progress is at most the 95 cap (hence below 100). -/
def stateBound (d : ClientState) : Bool :=
  d.status == "completed" || d.status == "error" || decide (d.progress ≤ 95)

/-- Rank of a status in the forward order
`uploading(0) → training(1) → completed/error(2)`. -/
def statusRank (st : String) : Nat :=
  if st = "training" then 1
  else if st = "completed" then 2
  else if st = "error" then 2
  else 0

/-- Side conditions under which a store mutation occurs in the server
control flow: a created identifier is a fresh UUID; `setTraining` runs right
after creation, while the record still says `uploading`; the trainer reports
a terminal status (or none) in its callback. -/
def opWF (s : Store) : StoreOp → Prop
  | .create id _ => findJob s id = none
  | .setTraining id => ∀ j, findJob s id = some j → j.status = "uploading"
  | .markError _ _ => True
  | .callback p =>
      p.status = none ∨ p.status = some "completed" ∨ p.status = some "error"

/-- Whether the record of `id` is present and carries a `result`, as a
three-valued observation of the store (`none` = record absent). -/
def resultFlag (s : Store) (id : String) : Option Bool :=
  (findJob s id).map (fun j => j.result.isSome)

/-- Abstract effect of one store mutation on the `resultFlag` observation of
a fixed identifier: creation resets it to `false`, the training and error
updates leave it alone, and a callback naming a truthy matching identifier
sets it to `true` whenever the record exists. -/
def opAbs (id : String) (op : StoreOp) (a : Option Bool) : Option Bool :=
  match op with
  | .create cid _ => if cid = id then some false else a
  | .setTraining _ => a
  | .markError _ _ => a
  | .callback p =>
      match p.jobId with
      | none => a
      | some jid => if jid = id ∧ jid ≠ "" then a.map (fun _ => true) else a

/-- Iterate `opAbs` over a sequence of store mutations. -/
def runAbs (id : String) (a : Option Bool) : List StoreOp → Option Bool
  | [] => a
  | op :: rest => runAbs id (opAbs id op a) rest

/-- A completed job record, as left by a no-status callback carrying the
metric `0.92 R2`. -/
def cJobDone : Job :=
  ⟨"j1", "completed", 100, "a@b.com", none, some ⟨some "0.92 R2", some "Great fit"⟩⟩

/-- A store holding only the completed job `cJobDone`. -/
def cStoreDone : Store := [("j1", cJobDone)]

/-- A later callback for the same job carrying an explicit `error` status. -/
def cPayloadErr : CallbackPayload :=
  ⟨some "j1", some "error", none, some "training crashed"⟩

/-- A job record in the middle of training, before any callback. -/
def cJobTraining : Job := ⟨"j2", "training", 40, "a@b.com", none, none⟩

/-- A store holding only the training job `cJobTraining`. -/
def cStoreTraining : Store := [("j2", cJobTraining)]

/-- An error callback for the training job, carrying result fields. -/
def cPayloadErr2 : CallbackPayload :=
  ⟨some "j2", some "error", some "n/a", some "failed"⟩

/-- The client state right after a successful submission: polling starts at
`status = "training"`, `progress = 30`. -/
def cClientTraining : ClientState := ⟨"training", 30, none, ""⟩

/-- A callback payload with result fields but no explicit status. -/
def cPayloadNoStatus : CallbackPayload :=
  ⟨some "j2", none, some "0.92 R2", some "Great fit"⟩

/-- A store holding a completed job and a training job. -/
def cStoreTwo : Store := [("j1", cJobDone), ("j2", cJobTraining)]

/-- An environment in which reading and storage succeed but the trainer
webhook call times out. -/
def cEnvTrainerFail : UploadEnv :=
  ⟨.ok (), .ok "uploads/123_data.csv", .error "timeout of 10000ms exceeded"⟩

/-- An environment in which every external step succeeds. -/
def cEnvOk : UploadEnv := ⟨.ok (), .ok "uploads/123_data.csv", .ok 200⟩

/-- A valid upload request: CSV present, non-empty email. -/
def cReq : UploadReq := ⟨true, "a@b.com"⟩

/-- A short polling run: one ordinary poll, one transport failure, then the
completed record is fetched. -/
def cPollEvents : List PollEvent :=
  [PollEvent.ok cJobTraining, PollEvent.transportError, PollEvent.ok cJobDone]

/- ### Lookup lemmas for the association-list store -/

theorem findJob_set_self (s : Store) (id : String) (j : Job) :
    findJob (setJob s id j) id = some j := by
  induction s with
  | nil => simp [setJob, findJob]
  | cons hd tl ih =>
      obtain ⟨k, v⟩ := hd
      by_cases h : k = id
      · simp [setJob, findJob, h]
      · simp [setJob, findJob, h, ih]

theorem findJob_set_ne (s : Store) (id id' : String) (j : Job) (h : id' ≠ id) :
    findJob (setJob s id j) id' = findJob s id' := by
  induction s with
  | nil => simp [setJob, findJob, Ne.symm h]
  | cons hd tl ih =>
      obtain ⟨k, v⟩ := hd
      by_cases hk : k = id
      · subst hk
        simp [setJob, findJob, Ne.symm h]
      · by_cases hk' : k = id' <;> simp [setJob, findJob, hk, hk', h, ih]

theorem findJob_modify_self (s : Store) (id : String) (f : Job → Job) :
    findJob (modifyJob s id f) id = (findJob s id).map f := by
  induction s with
  | nil => simp [modifyJob, findJob]
  | cons hd tl ih =>
      obtain ⟨k, v⟩ := hd
      by_cases h : k = id
      · simp [modifyJob, findJob, h]
      · simp [modifyJob, findJob, h, ih]

theorem findJob_modify_ne (s : Store) (id id' : String) (f : Job → Job)
    (h : id' ≠ id) :
    findJob (modifyJob s id f) id' = findJob s id' := by
  induction s with
  | nil => simp [modifyJob, findJob]
  | cons hd tl ih =>
      obtain ⟨k, v⟩ := hd
      by_cases hk : k = id
      · subst hk
        simp [modifyJob, findJob, Ne.symm h]
      · by_cases hk' : k = id' <;> simp [modifyJob, findJob, hk, hk', h, ih]

theorem modifyJob_modify_self (s : Store) (id : String) (f g : Job → Job) :
    modifyJob (modifyJob s id f) id g = modifyJob s id (fun j => g (f j)) := by
  induction s with
  | nil => simp [modifyJob]
  | cons hd tl ih =>
      obtain ⟨k, v⟩ := hd
      by_cases h : k = id
      · simp [modifyJob, h]
      · simp [modifyJob, h, ih]

/-- A found identifier makes the status handler answer 200 with the record. -/
theorem statusHandler_found (s : Store) (id : String) (j : Job)
    (h : findJob s id = some j) :
    statusHandler s id = (⟨200, HttpBody.job j⟩, s) := by
  unfold statusHandler
  rw [h]

/-- A matching truthy identifier makes the callback a record update. -/
theorem callbackStore_found (s : Store) (p : CallbackPayload) (id : String)
    (hid : p.jobId = some id) (hne : id ≠ "") (hsome : (findJob s id).isSome) :
    callbackStore s p = modifyJob s id (applyCallback p) := by
  unfold callbackStore
  rw [hid]
  cases hj : findJob s id with
  | none => rw [hj] at hsome; simp at hsome
  | some w => simp [hne, hj]

/-- The callback store effect is idempotent: running it twice with the same
payload gives the same store as running it once. -/
theorem callbackStore_idem (s : Store) (p : CallbackPayload) :
    callbackStore (callbackStore s p) p = callbackStore s p := by
  cases hp : p.jobId with
  | none => simp [callbackStore, hp]
  | some id =>
      by_cases hid : id = ""
      · simp [callbackStore, hp, hid]
      · cases hj : findJob s id with
        | none => simp [callbackStore, hp, hid, hj]
        | some w =>
            have h1 : callbackStore s p = modifyJob s id (applyCallback p) :=
              callbackStore_found s p id hp hid (by rw [hj]; rfl)
            rw [h1]
            have h2 : findJob (modifyJob s id (applyCallback p)) id =
                some (applyCallback p w) := by
              rw [findJob_modify_self, hj]
              rfl
            rw [callbackStore_found _ p id hp hid (by rw [h2]; rfl)]
            rw [modifyJob_modify_self]
            congr 1

/-- C5: `GET /api/status/:id` returns the full current job record when the
identifier is in the Job Store, returns 404 with
`{status:"error", message:"Job not found"}` when it is unknown, and in both
cases leaves the Job Store unchanged. -/
theorem C5_status_handler (s : Store) (id : String) :
    (statusHandler s id).2 = s ∧
    (∀ j, findJob s id = some j → (statusHandler s id).1 = ⟨200, HttpBody.job j⟩) ∧
    (findJob s id = none →
      (statusHandler s id).1 =
        ⟨404, HttpBody.msg ⟨some "error", some "Job not found", none, none⟩⟩) := by
  refine ⟨?_, ?_, ?_⟩
  · unfold statusHandler
    cases findJob s id <;> rfl
  · intro j hj
    rw [statusHandler_found s id j hj]
  · intro hn
    unfold statusHandler
    rw [hn]

/-- C5 witness: on a concrete store, a known identifier yields the record,
an unknown one yields the 404 error body, and the store is unchanged. -/
theorem C5_status_handler_witness :
    (statusHandler cStoreDone "j1").1 = ⟨200, HttpBody.job cJobDone⟩ ∧
    (statusHandler cStoreDone "nope").1 =
      ⟨404, HttpBody.msg ⟨some "error", some "Job not found", none, none⟩⟩ ∧
    (statusHandler cStoreDone "nope").2 = cStoreDone :=
  ⟨(C5_status_handler cStoreDone "j1").2.1 cJobDone (by decide),
   (C5_status_handler cStoreDone "nope").2.2 (by decide),
   (C5_status_handler cStoreDone "nope").1⟩

/-- C6: a callback whose job identifier is absent or matches no stored job
changes nothing and is still acknowledged with 200
`{status:"success", message:"Callback processed"}`. -/
theorem C6_callback_unknown_noop (s : Store) (p : CallbackPayload)
    (h : ∀ id, p.jobId = some id → id ≠ "" → findJob s id = none) :
    callbackHandler s p =
      (⟨200, HttpBody.msg ⟨some "success", some "Callback processed", none, none⟩⟩,
       s) := by
  unfold callbackHandler callbackStore
  cases hp : p.jobId with
  | none => rfl
  | some id =>
      by_cases hid : id = ""
      · simp [hid]
      · simp [hid, h id hp hid]

/-- C6 witness: a callback for the unknown identifier `zz` against a concrete
store is a no-op and still acknowledged. -/
theorem C6_callback_unknown_noop_witness :
    callbackHandler cStoreDone ⟨some "zz", none, none, none⟩ =
      (⟨200, HttpBody.msg ⟨some "success", some "Callback processed", none, none⟩⟩,
       cStoreDone) :=
  C6_callback_unknown_noop cStoreDone ⟨some "zz", none, none, none⟩
    (by
      intro id hid hne
      have h : "zz" = id := Option.some.inj hid
      subst h
      decide)

/-- C3: a callback whose identifier matches a known job sets the status of the record to the payload status (or `completed` when absent), its progress to
100, and its result to the display metric and message. -/
theorem C3_callback_known_job (s : Store) (p : CallbackPayload) (id : String)
    (j : Job) (hid : p.jobId = some id) (hne : id ≠ "")
    (hj : findJob s id = some j) :
    (p.status = none →
      findJob (callbackStore s p) id =
        some { j with status := "completed", progress := 100,
                      result := some ⟨p.display_metric, p.message⟩ }) ∧
    (∀ st, p.status = some st → st ≠ "" →
      findJob (callbackStore s p) id =
        some { j with status := st, progress := 100,
                      result := some ⟨p.display_metric, p.message⟩ }) := by
  have hstore : callbackStore s p = modifyJob s id (applyCallback p) :=
    callbackStore_found s p id hid hne (by rw [hj]; rfl)
  have hfind : findJob (callbackStore s p) id = some (applyCallback p j) := by
    rw [hstore, findJob_modify_self, hj]
    rfl
  constructor
  · intro h0
    rw [hfind]
    simp [applyCallback, statusOrCompleted, h0]
  · intro st hst hstne
    rw [hfind]
    simp [applyCallback, statusOrCompleted, hst, hstne]

/-- C3 witness: the scenario of the spec — a callback with a display metric and
message but no explicit status turns the training record into a completed
one with progress 100 and that result. -/
theorem C3_callback_known_job_witness :
    findJob (callbackStore cStoreTraining cPayloadNoStatus) "j2" =
      some ⟨"j2", "completed", 100, "a@b.com", none,
            some ⟨some "0.92 R2", some "Great fit"⟩⟩ :=
  (C3_callback_known_job cStoreTraining cPayloadNoStatus "j2" cJobTraining
    rfl (by decide) (by decide)).1 rfl

/-- C7: applying the Callback Handler a second time with the same payload to
a completed job leaves the Job Store exactly as after the first application. -/
theorem C7_callback_idempotent (s : Store) (p : CallbackPayload) (id : String)
    (j : Job) (hid : p.jobId = some id) (hj : findJob s id = some j)
    (hdone : j.status = "completed") :
    callbackStore (callbackStore s p) p = callbackStore s p :=
  callbackStore_idem s p

/-- C7 witness: a duplicate delivery of the no-status callback to the
completed job changes nothing further. -/
theorem C7_callback_idempotent_witness :
    callbackStore (callbackStore cStoreDone ⟨some "j1", none, some "0.92 R2", some "Great fit"⟩)
        ⟨some "j1", none, some "0.92 R2", some "Great fit"⟩ =
      callbackStore cStoreDone ⟨some "j1", none, some "0.92 R2", some "Great fit"⟩ :=
  C7_callback_idempotent cStoreDone ⟨some "j1", none, some "0.92 R2", some "Great fit"⟩
    "j1" cJobDone rfl (by decide) rfl

/-- C10: a callback matching a known job leaves every other record untouched
and, on the matched record, changes only status, progress and result — its
id, email (and message) fields are preserved. -/
theorem C10_callback_frame (s : Store) (p : CallbackPayload) (jid : String)
    (hid : p.jobId = some jid) :
    (∀ id, id ≠ jid → findJob (callbackStore s p) id = findJob s id) ∧
    (∀ j, findJob s jid = some j →
      (findJob (callbackStore s p) jid).map Job.id = some j.id ∧
      (findJob (callbackStore s p) jid).map Job.email = some j.email ∧
      (findJob (callbackStore s p) jid).map Job.message = some j.message) := by
  by_cases hne : jid = ""
  · have hs : callbackStore s p = s := by
      unfold callbackStore
      rw [hid]
      simp [hne]
    rw [hs]
    exact ⟨fun id _ => rfl, fun j hj => by rw [hj]; exact ⟨rfl, rfl, rfl⟩⟩
  · cases hj : findJob s jid with
    | none =>
        have hs : callbackStore s p = s := by
          unfold callbackStore
          rw [hid]
          simp [hne, hj]
        rw [hs]
        exact ⟨fun id _ => rfl, fun j hjj => Option.noConfusion hjj⟩
    | some w =>
        have hs : callbackStore s p = modifyJob s jid (applyCallback p) :=
          callbackStore_found s p jid hid hne (by rw [hj]; rfl)
        rw [hs]
        constructor
        · intro id hne'
          exact findJob_modify_ne s jid id (applyCallback p) hne'
        · intro j hjj
          obtain rfl : w = j := Option.some.inj hjj
          rw [findJob_modify_self, hj]
          exact ⟨rfl, rfl, rfl⟩

/-- The catch block answers 500 with the failure message and leaves the job
present, marked `error` and carrying the message. -/
theorem uploadCatch_spec (s : Store) (jid m : String) (j : Job)
    (hj : findJob s jid = some j) :
    (uploadCatch s jid m).1 =
      ⟨500, HttpBody.msg ⟨some "error",
        some ("Upload process failed: " ++ m), none, none⟩⟩ ∧
    findJob (uploadCatch s jid m).2 jid =
      some { j with status := "error", message := some m } := by
  constructor
  · rfl
  · show findJob (applyOp s (.markError jid m)) jid = _
    simp [applyOp, hj, findJob_modify_self]

/-- The freshly created record is found in the store after step 1. -/
theorem findJob_afterCreate (s : Store) (jid email : String) :
    findJob (applyOp s (.create jid email)) jid = some (initialJob jid email) := by
  simp [applyOp, findJob_set_self]

/-- After steps 1 and 3 the record says `training` with progress 40. -/
theorem findJob_afterTraining (s : Store) (jid email : String) :
    findJob (applyOp (applyOp s (.create jid email)) (.setTraining jid)) jid =
      some ⟨jid, "training", 40, email, none, none⟩ := by
  simp [applyOp, findJob_modify_self, findJob_set_self, initialJob]

/-- A validated upload whose file read fails goes to the catch block on the
store from step 1. -/
theorem uploadHandler_readFail (s : Store) (req : UploadReq) (env : UploadEnv)
    (jid me : String) (hcsv : req.hasCsv = true) (hemail : req.email ≠ "")
    (hr : env.readResult = .error me) :
    uploadHandler s req env jid =
      uploadCatch (applyOp s (.create jid req.email)) jid me := by
  unfold uploadHandler
  rw [hcsv, hr]
  simp [hemail]

/-- A validated upload whose storage upload fails goes to the catch block on
the store from step 1, with the wrapped storage message. -/
theorem uploadHandler_storageFail (s : Store) (req : UploadReq)
    (env : UploadEnv) (jid me : String) (hcsv : req.hasCsv = true)
    (hemail : req.email ≠ "") (hr : env.readResult = .ok ())
    (hs : env.storageResult = .error me) :
    uploadHandler s req env jid =
      uploadCatch (applyOp s (.create jid req.email)) jid (supabaseErrMsg me) := by
  unfold uploadHandler
  rw [hcsv, hr, hs]
  simp [hemail]

/-- A validated upload whose trainer call fails goes to the catch block on
the store from step 3. -/
theorem uploadHandler_trainerFail (s : Store) (req : UploadReq)
    (env : UploadEnv) (jid pth me : String) (hcsv : req.hasCsv = true)
    (hemail : req.email ≠ "") (hr : env.readResult = .ok ())
    (hs : env.storageResult = .ok pth) (ht : env.trainerResult = .error me) :
    uploadHandler s req env jid =
      uploadCatch (applyOp (applyOp s (.create jid req.email)) (.setTraining jid))
        jid me := by
  unfold uploadHandler
  rw [hcsv, hr, hs, ht]
  simp [hemail]

/-- The conclusion of the error contract, for any store reached by the catch
block in which the job is present. -/
theorem catch_conclusion (scur : Store) (jid m : String) (j0 : Job)
    (hj0 : findJob scur jid = some j0) :
    (uploadCatch scur jid m).1 =
      ⟨500, HttpBody.msg ⟨some "error",
        some ("Upload process failed: " ++ m), none, none⟩⟩ ∧
    (findJob (uploadCatch scur jid m).2 jid ≠ none ∧
     ∀ j, findJob (uploadCatch scur jid m).2 jid = some j →
       j.status = "error" ∧ j.message = some m ∧
       statusHandler (uploadCatch scur jid m).2 jid =
         (⟨200, HttpBody.job j⟩, (uploadCatch scur jid m).2)) := by
  obtain ⟨hresp, hfind⟩ := uploadCatch_spec scur jid m j0 hj0
  refine ⟨hresp, ?_, ?_⟩
  · rw [hfind]
    simp
  · intro j hj
    rw [hfind] at hj
    obtain rfl : _ = j := Option.some.inj hj
    exact ⟨rfl, rfl, statusHandler_found _ jid _ hfind⟩

/-- C4: once the job record has been created, any failure of a later step
(file read, storage upload, or trainer call, including a timeout or non-2xx
reply) marks the job `error` with the failure message, answers HTTP 500
describing the failure, and leaves the record queryable through the status
handler. -/
theorem C4_upload_failure_marks_error (s : Store) (req : UploadReq)
    (env : UploadEnv) (jid m : String) (hcsv : req.hasCsv = true)
    (hemail : req.email ≠ "") (hfail : envFailMsg env = some m) :
    (uploadHandler s req env jid).1 =
      ⟨500, HttpBody.msg ⟨some "error",
        some ("Upload process failed: " ++ m), none, none⟩⟩ ∧
    (findJob (uploadHandler s req env jid).2 jid ≠ none ∧
     ∀ j, findJob (uploadHandler s req env jid).2 jid = some j →
       j.status = "error" ∧ j.message = some m ∧
       statusHandler (uploadHandler s req env jid).2 jid =
         (⟨200, HttpBody.job j⟩, (uploadHandler s req env jid).2)) := by
  unfold envFailMsg at hfail
  cases hr : env.readResult with
  | error me =>
      rw [hr] at hfail
      obtain rfl : me = m := Option.some.inj hfail
      rw [uploadHandler_readFail s req env jid me hcsv hemail hr]
      exact catch_conclusion _ jid me _ (findJob_afterCreate s jid req.email)
  | ok u =>
      obtain rfl : u = () := rfl
      rw [hr] at hfail
      cases hs : env.storageResult with
      | error me =>
          rw [hs] at hfail
          obtain rfl : supabaseErrMsg me = m := Option.some.inj hfail
          rw [uploadHandler_storageFail s req env jid me hcsv hemail hr hs]
          exact catch_conclusion _ jid _ _ (findJob_afterCreate s jid req.email)
      | ok pth =>
          rw [hs] at hfail
          cases ht : env.trainerResult with
          | error me =>
              rw [ht] at hfail
              obtain rfl : me = m := Option.some.inj hfail
              rw [uploadHandler_trainerFail s req env jid pth me hcsv hemail hr hs ht]
              exact catch_conclusion _ jid me _
                (findJob_afterTraining s jid req.email)
          | ok n =>
              rw [ht] at hfail
              cases hfail

/-- C4 witness: a trainer-call timeout on an empty store and a valid request
produces a 500 response carrying the timeout detail, and the job is stored
as an error record with that message. -/
theorem C4_upload_failure_marks_error_witness :
    (uploadHandler [] cReq cEnvTrainerFail "u1").1 =
      ⟨500, HttpBody.msg ⟨some "error",
        some ("Upload process failed: " ++ "timeout of 10000ms exceeded"),
        none, none⟩⟩ ∧
    findJob (uploadHandler [] cReq cEnvTrainerFail "u1").2 "u1" ≠ none := by
  have h := C4_upload_failure_marks_error [] cReq cEnvTrainerFail "u1"
    "timeout of 10000ms exceeded" rfl (by decide) rfl
  exact ⟨h.1, h.2.1⟩

/-- C9: a successful upload (valid file and email, storage and trainer calls
succeed) answers `{status:"success", ..., jobId}` and an immediate status
query for that identifier returns a record with status `training` and
progress between 30 and 40. -/
theorem C9_upload_success (s : Store) (req : UploadReq) (env : UploadEnv)
    (jid : String) (hcsv : req.hasCsv = true) (hemail : req.email ≠ "")
    (hr : env.readResult = .ok ()) (hsr : ∃ pth, env.storageResult = .ok pth)
    (htr : ∃ n, env.trainerResult = .ok n) :
    (uploadHandler s req env jid).1 =
      ⟨200, HttpBody.msg ⟨some "success",
        some "CSV uploaded & ML training started", some jid, none⟩⟩ ∧
    (findJob (uploadHandler s req env jid).2 jid ≠ none ∧
     ∀ j, findJob (uploadHandler s req env jid).2 jid = some j →
       j.status = "training" ∧ 30 ≤ j.progress ∧ j.progress ≤ 40 ∧
       statusHandler (uploadHandler s req env jid).2 jid =
         (⟨200, HttpBody.job j⟩, (uploadHandler s req env jid).2)) := by
  obtain ⟨pth, hsr⟩ := hsr
  obtain ⟨n, htr⟩ := htr
  have heq : uploadHandler s req env jid =
      (⟨200, HttpBody.msg ⟨some "success",
        some "CSV uploaded & ML training started", some jid, none⟩⟩,
       applyOp (applyOp s (.create jid req.email)) (.setTraining jid)) := by
    unfold uploadHandler
    rw [hcsv, hr, hsr, htr]
    simp [hemail]
  have hfind : findJob (applyOp (applyOp s (.create jid req.email))
      (.setTraining jid)) jid =
      some ⟨jid, "training", 40, req.email, none, none⟩ :=
    findJob_afterTraining s jid req.email
  rw [heq]
  refine ⟨rfl, ?_, ?_⟩
  · rw [hfind]
    simp
  · intro j hj
    rw [hfind] at hj
    obtain rfl : _ = j := Option.some.inj hj
    exact ⟨rfl, by show (30 : Nat) ≤ 40; decide, by show (40 : Nat) ≤ 40; decide,
      statusHandler_found _ jid _ hfind⟩

/-- C9 witness: the scenario of the spec on an empty store — a fully successful
upload answers success with the job identifier, and the stored record says
`training` with progress 40. -/
theorem C9_upload_success_witness :
    (uploadHandler [] cReq cEnvOk "u1").1 =
      ⟨200, HttpBody.msg ⟨some "success",
        some "CSV uploaded & ML training started", some "u1", none⟩⟩ ∧
    (findJob (uploadHandler [] cReq cEnvOk "u1").2 "u1").map Job.status =
      some "training" := by
  have h := C9_upload_success [] cReq cEnvOk "u1" rfl (by decide) rfl
    ⟨"uploads/123_data.csv", rfl⟩ ⟨200, rfl⟩
  refine ⟨h.1, ?_⟩
  cases hf : findJob (uploadHandler [] cReq cEnvOk "u1").2 "u1" with
  | none => exact absurd hf h.2.1
  | some j =>
      have hst := (h.2.2 j hf).1
      rw [Option.map_some', hst]

/-- C10 witness: the no-status callback for `j2` leaves the record of `j1`
untouched and preserves the email of `j2`. -/
theorem C10_callback_frame_witness :
    findJob (callbackStore cStoreTwo cPayloadNoStatus) "j1" =
      findJob cStoreTwo "j1" ∧
    (findJob (callbackStore cStoreTwo cPayloadNoStatus) "j2").map Job.email =
      some "a@b.com" :=
  ⟨(C10_callback_frame cStoreTwo cPayloadNoStatus "j2" rfl).1 "j1" (by decide),
   ((C10_callback_frame cStoreTwo cPayloadNoStatus "j2" rfl).2 cJobTraining
      (by decide)).2.1⟩

/- ### C1: status monotonicity -/

theorem statusRank_le_two (st : String) : statusRank st ≤ 2 := by
  unfold statusRank
  split_ifs <;> omega

/-- Packaging of the single-step monotonicity conclusion from a computed
lookup result. -/
theorem rank_step_of_eq {s' : Store} {id : String} {j v : Job}
    (heq : findJob s' id = some v)
    (hle : statusRank j.status ≤ statusRank v.status) :
    findJob s' id ≠ none ∧
    ∀ j', findJob s' id = some j' →
      statusRank j.status ≤ statusRank j'.status := by
  refine ⟨by rw [heq]; simp, fun j' hj' => ?_⟩
  rw [heq] at hj'
  obtain rfl : v = j' := Option.some.inj hj'
  exact hle

/-- C1 counterexample: the claim as stated is false — the callback handler
writes the payload status unconditionally, so a later callback carrying
`status:"error"` moves the already terminal (completed) job `j1` to `error`,
a transition out of a terminal state. -/
theorem C1_forward_counterexample :
    findJob cStoreDone "j1" = some cJobDone ∧
    cJobDone.status = "completed" ∧
    findJob (callbackStore cStoreDone cPayloadErr) "j1" =
      some ⟨"j1", "error", 100, "a@b.com", none,
            some ⟨none, some "training crashed"⟩⟩ ∧
    ("error" : String) ≠ "completed" :=
  ⟨rfl, rfl, rfl, by decide⟩

/-- C1 (amended): every store mutation keeps existing records present, and
the status rank (`uploading` 0, `training` 1, `completed`/`error` 2) never
decreases, provided a created identifier is fresh, the training update runs
on an `uploading` record, and a callback payload status is absent or
terminal; the code does not, however, prevent a callback from replacing one
terminal status by another. -/
theorem C1_forward_amended (s : Store) (op : StoreOp) (hwf : opWF s op)
    (id : String) (j : Job) (hj : findJob s id = some j) :
    findJob (applyOp s op) id ≠ none ∧
    ∀ j', findJob (applyOp s op) id = some j' →
      statusRank j.status ≤ statusRank j'.status := by
  cases op with
  | create cid em =>
      have hwf' : findJob s cid = none := hwf
      by_cases h : cid = id
      · subst h
        rw [hwf'] at hj
        exact Option.noConfusion hj
      · have heq : findJob (applyOp s (.create cid em)) id = some j := by
          show findJob (setJob s cid (initialJob cid em)) id = some j
          rw [findJob_set_ne s cid id _ (fun hh => h hh.symm)]
          exact hj
        exact rank_step_of_eq heq (le_refl _)
  | setTraining tid =>
      by_cases h : tid = id
      · subst h
        have h0 : j.status = "uploading" := hwf j hj
        have heq : findJob (applyOp s (.setTraining tid)) tid =
            some { j with status := "training", progress := 40 } := by
          show findJob (modifyJob s tid _) tid = _
          rw [findJob_modify_self, hj]
          rfl
        refine rank_step_of_eq heq ?_
        rw [h0]
        show statusRank "uploading" ≤ statusRank "training"
        decide
      · have heq : findJob (applyOp s (.setTraining tid)) id = some j := by
          show findJob (modifyJob s tid _) id = _
          rw [findJob_modify_ne s tid id _ (fun hh => h hh.symm)]
          exact hj
        exact rank_step_of_eq heq (le_refl _)
  | markError mid m =>
      cases hm : findJob s mid with
      | none =>
          have heq : applyOp s (.markError mid m) = s := by
            simp [applyOp, hm]
          rw [heq]
          exact rank_step_of_eq hj (le_refl _)
      | some w =>
          by_cases h : mid = id
          · subst h
            obtain rfl : w = j := by
              rw [hm] at hj
              exact Option.some.inj hj
            have heq : findJob (applyOp s (.markError mid m)) mid =
                some { w with status := "error", message := some m } := by
              simp [applyOp, hm, findJob_modify_self]
            refine rank_step_of_eq heq ?_
            refine le_trans (statusRank_le_two _) ?_
            show (2 : Nat) ≤ statusRank "error"
            decide
          · have heq : findJob (applyOp s (.markError mid m)) id = some j := by
              simp only [applyOp, hm]
              rw [findJob_modify_ne s mid id _ (fun hh => h hh.symm)]
              exact hj
            exact rank_step_of_eq heq (le_refl _)
  | callback p =>
      have hwfp : p.status = none ∨ p.status = some "completed" ∨
          p.status = some "error" := hwf
      have h2 : statusRank (statusOrCompleted p.status) = 2 := by
        rcases hwfp with h|h|h <;> rw [h] <;> decide
      cases hp : p.jobId with
      | none =>
          have heq : applyOp s (.callback p) = s := by
            simp [applyOp, callbackStore, hp]
          rw [heq]
          exact rank_step_of_eq hj (le_refl _)
      | some jid =>
          by_cases hjid : jid = ""
          · have heq : applyOp s (.callback p) = s := by
              simp [applyOp, callbackStore, hp, hjid]
            rw [heq]
            exact rank_step_of_eq hj (le_refl _)
          · cases hm : findJob s jid with
            | none =>
                have heq : applyOp s (.callback p) = s := by
                  simp [applyOp, callbackStore, hp, hjid, hm]
                rw [heq]
                exact rank_step_of_eq hj (le_refl _)
            | some w =>
                have hcb : applyOp s (.callback p) =
                    modifyJob s jid (applyCallback p) := by
                  show callbackStore s p = _
                  exact callbackStore_found s p jid hp hjid (by rw [hm]; rfl)
                by_cases h : jid = id
                · subst h
                  obtain rfl : w = j := by
                    rw [hm] at hj
                    exact Option.some.inj hj
                  have heq : findJob (applyOp s (.callback p)) jid =
                      some (applyCallback p w) := by
                    rw [hcb, findJob_modify_self, hm]
                    rfl
                  refine rank_step_of_eq heq ?_
                  show statusRank w.status ≤ statusRank (statusOrCompleted p.status)
                  rw [h2]
                  exact statusRank_le_two _
                · have heq : findJob (applyOp s (.callback p)) id = some j := by
                    rw [hcb, findJob_modify_ne s jid id _ (fun hh => h hh.symm)]
                    exact hj
                  exact rank_step_of_eq heq (le_refl _)

/-- C1 witness: the well-formed error callback on the training job keeps the
record present and does not lower its status rank. -/
theorem C1_forward_witness :
    findJob (applyOp cStoreTraining (StoreOp.callback cPayloadErr2)) "j2" ≠
      none ∧
    statusRank cJobTraining.status ≤
      statusRank (Job.status ⟨"j2", "error", 100, "a@b.com", none,
        some ⟨some "n/a", some "failed"⟩⟩) := by
  have h := C1_forward_amended cStoreTraining (StoreOp.callback cPayloadErr2)
    (Or.inr (Or.inr rfl)) "j2" cJobTraining rfl
  exact ⟨h.1, h.2 _ (by decide)⟩

/- ### C2: presence of the result field -/

/-- C2 counterexample: the claim as stated is false — a callback whose
payload status is `"error"` still stores the result object, so afterwards
`j2` has `result` present while its status is not `completed`. -/
theorem C2_result_counterexample :
    findJob (callbackStore cStoreTraining cPayloadErr2) "j2" =
      some ⟨"j2", "error", 100, "a@b.com", none,
            some ⟨some "n/a", some "failed"⟩⟩ ∧
    ("error" : String) ≠ "completed" :=
  ⟨rfl, by decide⟩

/-- One-step refinement: each store mutation changes the presence of a
presence of `result` in a record exactly as the abstract transition `opAbs` says. -/
theorem resultFlag_applyOp (s : Store) (op : StoreOp) (id : String) :
    resultFlag (applyOp s op) id = opAbs id op (resultFlag s id) := by
  cases op with
  | create cid em =>
      by_cases h : cid = id
      · subst h
        simp [resultFlag, applyOp, opAbs, findJob_set_self, initialJob]
      · simp [resultFlag, applyOp, opAbs, h,
          findJob_set_ne s cid id _ (fun hh => h hh.symm)]
  | setTraining tid =>
      by_cases h : tid = id
      · subst h
        show (findJob (modifyJob s tid _) tid).map _ = (findJob s tid).map _
        rw [findJob_modify_self]
        cases findJob s tid <;> rfl
      · simp [resultFlag, applyOp, opAbs,
          findJob_modify_ne s tid id _ (fun hh => h hh.symm)]
  | markError mid m =>
      cases hm : findJob s mid with
      | none => simp [resultFlag, applyOp, opAbs, hm]
      | some w =>
          by_cases h : mid = id
          · subst h
            show (findJob (applyOp s (.markError mid m)) mid).map _ =
              (findJob s mid).map _
            simp only [applyOp, hm]
            rw [findJob_modify_self, hm]
            rfl
          · simp only [opAbs, resultFlag, applyOp, hm]
            rw [findJob_modify_ne s mid id _ (fun hh => h hh.symm)]
  | callback p =>
      cases hp : p.jobId with
      | none => simp [resultFlag, applyOp, callbackStore, opAbs, hp]
      | some jid =>
          by_cases hjid : jid = ""
          · simp [resultFlag, applyOp, callbackStore, opAbs, hp, hjid]
          · cases hm : findJob s jid with
            | none =>
                by_cases h : jid = id
                · subst h
                  simp [resultFlag, applyOp, callbackStore, opAbs, hp, hjid, hm]
                · simp [resultFlag, applyOp, callbackStore, opAbs, hp, hjid,
                    hm, h]
            | some w =>
                by_cases h : jid = id
                · subst h
                  have hfind : findJob (callbackStore s p) jid =
                      some (applyCallback p w) := by
                    rw [callbackStore_found s p jid hp hjid (by rw [hm]; rfl),
                      findJob_modify_self, hm]
                    rfl
                  show (findJob (callbackStore s p) jid).map _ = _
                  rw [hfind]
                  simp [opAbs, hp, hjid, resultFlag, hm, applyCallback]
                · have hne : findJob (callbackStore s p) id = findJob s id := by
                    rw [callbackStore_found s p jid hp hjid (by rw [hm]; rfl)]
                    exact findJob_modify_ne s jid id _ (fun hh => h hh.symm)
                  show (findJob (callbackStore s p) id).map _ = _
                  rw [hne]
                  simp [opAbs, hp, h, resultFlag]

/-- C2 (amended): after any sequence of store mutations, the presence of a
result field of a record evolves exactly by the abstract rule — absent at
creation, untouched by the training and error updates, and set by every
callback that matches an existing job regardless of the payload status. In
particular `result` is present iff a matching callback has been processed
since the creation of the job, and "present iff status = completed" fails. -/
theorem C2_result_amended (ops : List StoreOp) : ∀ (s : Store) (id : String),
    resultFlag (runOps s ops) id = runAbs id (resultFlag s id) ops := by
  induction ops with
  | nil => intro s id; rfl
  | cons op rest ih =>
      intro s id
      show resultFlag (runOps (applyOp s op) rest) id =
        runAbs id (opAbs id op (resultFlag s id)) rest
      rw [← resultFlag_applyOp s op id]
      exact ih (applyOp s op) id

/- ### C8: client progress -/

/-- C8 counterexample: the claim as stated is false — a poll whose transport
fails is swallowed without advancing progress: from the initial training
state at progress 30 (below the 95 cap) the state is unchanged, not advanced
by a positive increment. -/
theorem C8_progress_counterexample :
    pollStep cClientTraining PollEvent.transportError = cClientTraining ∧
    cClientTraining.progress = 30 ∧
    cClientTraining.status = "training" ∧
    (30 : Nat) < 95 :=
  ⟨rfl, rfl, rfl, by decide⟩

/-- A poll never lowers progress while it is at most the cap. -/
theorem pollStep_progress_le (c : ClientState) (e : PollEvent)
    (h : c.progress ≤ 95) : c.progress ≤ (pollStep c e).progress := by
  cases e with
  | transportError => exact le_refl _
  | ok j =>
      unfold pollStep
      by_cases h1 : j.status = "completed"
      · simp [h1]
        omega
      · by_cases h2 : j.status = "error"
        · simp [h1, h2]
        · simp [h1, h2]
          omega

/-- A poll from an in-bounds training state lands in bounds. -/
theorem pollStep_bound (c : ClientState) (e : PollEvent)
    (h : c.progress ≤ 95) : stateBound (pollStep c e) = true := by
  cases e with
  | transportError => simp [pollStep, stateBound, h]
  | ok j =>
      unfold pollStep
      by_cases h1 : j.status = "completed"
      · simp [h1, stateBound]
      · by_cases h2 : j.status = "error"
        · simp [h1, h2, stateBound]
        · have hmin : min (c.progress + 2) 95 ≤ 95 := min_le_right _ _
          simp [h1, h2, stateBound, hmin]

/-- The polling trace always starts with the given state. -/
theorem pollStates_shape (c : ClientState) (es : List PollEvent) :
    ∃ t, pollStates c es = c :: t := by
  cases es with
  | nil => exact ⟨[], rfl⟩
  | cons e es' =>
      by_cases h : c.status = "training"
      · exact ⟨pollStates (pollStep c e) es', by simp [pollStates, h]⟩
      · exact ⟨[], by simp [pollStates, h]⟩

/-- Invariant of the polling loop: from an in-bounds state, the trace is
monotone in progress and every visited state is in bounds. -/
theorem pollStates_inv (es : List PollEvent) : ∀ c : ClientState,
    stateBound c = true →
    progressMono (pollStates c es) = true ∧
    (pollStates c es).all stateBound = true := by
  induction es with
  | nil =>
      intro c hc
      exact ⟨rfl, by simp [pollStates, hc]⟩
  | cons e es' ih =>
      intro c hc
      by_cases hs : c.status = "training"
      · have hp : c.progress ≤ 95 := by
          simp [stateBound] at hc
          rcases hc with (h|h)|h
          · rw [hs] at h
            exact absurd h (by decide)
          · rw [hs] at h
            exact absurd h (by decide)
          · exact h
        have hb : stateBound (pollStep c e) = true := pollStep_bound c e hp
        have hle : c.progress ≤ (pollStep c e).progress :=
          pollStep_progress_le c e hp
        obtain ⟨hm, ha⟩ := ih (pollStep c e) hb
        obtain ⟨t, ht⟩ := pollStates_shape (pollStep c e) es'
        constructor
        · show progressMono (pollStates c (e :: es')) = true
          simp only [pollStates, if_pos hs]
          rw [ht]
          show (decide (c.progress ≤ (pollStep c e).progress) &&
            progressMono (pollStep c e :: t)) = true
          rw [← ht]
          simp [hle, hm]
        · show (pollStates c (e :: es')).all stateBound = true
          simp only [pollStates, if_pos hs]
          simp [hc, ha]
      · refine ⟨?_, ?_⟩
        · show progressMono (pollStates c (e :: es')) = true
          simp [pollStates, hs, progressMono]
        · show (pollStates c (e :: es')).all stateBound = true
          simp [pollStates, hs, hc]

/-- C8 (amended): within one submission lifecycle, starting from the
training state, the displayed progress never decreases along the polling
trace and every non-terminal state stays at most 95 (hence below 100);
each successful non-terminal poll advances progress to
`min (progress + 2) 95`, while a swallowed transport failure leaves the
client state unchanged (it does not advance progress). -/
theorem C8_progress_amended (c : ClientState) (es : List PollEvent)
    (hs : c.status = "training") (hp : c.progress ≤ 95) :
    progressMono (pollStates c es) = true ∧
    (pollStates c es).all stateBound = true ∧
    (∀ d : ClientState, pollStep d PollEvent.transportError = d) ∧
    (∀ (d : ClientState) (j : Job), j.status ≠ "completed" →
      j.status ≠ "error" →
      (pollStep d (PollEvent.ok j)).progress = min (d.progress + 2) 95) := by
  have hc : stateBound c = true := by
    simp [stateBound, hp]
  obtain ⟨h1, h2⟩ := pollStates_inv es c hc
  refine ⟨h1, h2, fun d => rfl, fun d j hjc hje => ?_⟩
  simp [pollStep, hjc, hje]

/-- C8 witness: a concrete three-poll trace from the initial training state
is monotone and in bounds; a transport failure leaves the state unchanged;
an ordinary poll advances 30 to `min 32 95`. -/
theorem C8_progress_witness :
    progressMono (pollStates cClientTraining cPollEvents) = true ∧
    (pollStates cClientTraining cPollEvents).all stateBound = true ∧
    pollStep cClientTraining PollEvent.transportError = cClientTraining ∧
    (pollStep cClientTraining (PollEvent.ok cJobTraining)).progress =
      min (30 + 2) 95 := by
  have h := C8_progress_amended cClientTraining cPollEvents rfl (by decide)
  exact ⟨h.1, h.2.1, h.2.2.1 cClientTraining,
    h.2.2.2 cClientTraining cJobTraining (by decide) (by decide)⟩

end AutoML
